import Mathlib

/-!
# Verification of the aws-permission-tool core (src/main.py)

A shallow embedding of the program's core logic.  Python strings are
modelled as `List Char` (`Str` below); Python dicts whose keys are program
literals are modelled as association lists; the remote AWS collaborator
(boto3) is modelled as an oracle function from the concrete API call made
to the response dictionary; raised exceptions are modelled as `Except`
errors.  Printing of diagnostic output is modelled by returning the
printed data (stderr reports, displayed records) in the result structure.
-/

deriving instance DecidableEq for Except

/-- Python strings, modelled as lists of characters. -/
abbrev Str := List Char

/-- `pySplit sep s` models Python `s.split(sep)` for a one-character
separator: `''.split(c) == ['']`, and every occurrence of the separator
delimits a (possibly empty) field. -/
def pySplit (sep : Char) : Str → List Str
  | [] => [[]]
  | c :: rest =>
    if c = sep then [] :: pySplit sep rest
    else
      match pySplit sep rest with
      | [] => [[c]]
      | f :: r => (c :: f) :: r

/-- `pySplitOnce sep s` models Python `s.split(sep, 1)`: `none` when the
separator does not occur (Python returns the one-element list `[s]`,
which fails to unpack into two names), otherwise the pieces before and
after the first occurrence. -/
def pySplitOnce (sep : Char) : Str → Option (Str × Str)
  | [] => none
  | c :: rest =>
    if c = sep then some ([], rest)
    else (pySplitOnce sep rest).map (fun p => (c :: p.1, p.2))

/-- Python's substring test `needle in hay` on strings: used by the source
at `self.type in SERVICE_MAP[self.service]['grantees']`, where the
`grantees` entry is the bare string `'user'`. -/
def pyInStr (needle hay : Str) : Bool :=
  (List.range (hay.length + 1)).any (fun i => (hay.drop i).take needle.length = needle)

example : pySplit ':' "a:b".data = ["a".data, "b".data] := by decide
example : pySplit ':' "".data = ["".data] := by decide
example : pySplit ':' ":".data = ["".data, "".data] := by decide
example : pySplitOnce '/' "ab/cd/e".data = some ("ab".data, "cd/e".data) := by decide
example : pySplitOnce '/' "abcd".data = none := by decide
example : pyInStr "use".data "user".data = true := by decide
example : pyInStr "dataset".data "user".data = false := by decide

/-! ## The identifier model: class `Arn` (src/main.py lines 56-82) -/

/-- The fields assigned by `Arn.__init__`. -/
structure Arn where
  const : Str
  partition : Str
  service : Str
  region : Str
  account_id : Str
  resource_type : Str
  resource_id : Str
deriving DecidableEq, Repr

/-- The distinct `ValueError` messages raised by `Arn.__init__`. -/
inductive ArnErr where
  /-- "Invalid ARN: ..." — the colon split yields fewer than five fields. -/
  | invalidArn
  /-- "... is not an AWS ARN" — first two fields are not `arn`, `aws`. -/
  | notAws
  /-- "Invalid resource-type and resource-id specification ..." -/
  | invalidResource
deriving DecidableEq, Repr

/-- `Arn.__init__` (src/main.py lines 57-76): split on `:` into
`const, partition, service, region, account_id, *resource`; check the
`arn`/`aws` prefix; then the resource descriptor is either one token that
must contain `/` (split once) or exactly two tokens. -/
def Arn.parse (arn : Str) : Except ArnErr Arn :=
  match pySplit ':' arn with
  | const :: partition :: service :: region :: account_id :: resource =>
    if const ≠ "arn".data ∨ partition ≠ "aws".data then
      .error .notAws
    else
      match resource with
      | [r] =>
        match pySplitOnce '/' r with
        | some (t, i) => .ok ⟨const, partition, service, region, account_id, t, i⟩
        | none => .error .invalidResource
      | [t, i] => .ok ⟨const, partition, service, region, account_id, t, i⟩
      | _ => .error .invalidResource
  | _ => .error .invalidArn

/-- `Arn.__str__` (src/main.py lines 78-82):
`f'{const}:{partition}:{service}:{region}:{account_id}:{resource_type}/{resource_id}'`. -/
def Arn.str (a : Arn) : Str :=
  a.const ++ ':' :: (a.partition ++ ':' :: (a.service ++ ':' ::
    (a.region ++ ':' :: (a.account_id ++ ':' :: (a.resource_type ++ '/' :: a.resource_id)))))

example :
    Arn.parse "arn:aws:quicksight:us-east-1:123456789012:dataset/abc".data =
      .ok ⟨"arn".data, "aws".data, "quicksight".data, "us-east-1".data,
        "123456789012".data, "dataset".data, "abc".data⟩ := by decide

example :
    Arn.str ⟨"arn".data, "aws".data, "quicksight".data, "us-east-1".data,
        "123456789012".data, "dataset".data, "abc".data⟩ =
      "arn:aws:quicksight:us-east-1:123456789012:dataset/abc".data := by decide

example : Arn.parse "arn:aws:s:r:a:ty:id".data =
    .ok ⟨"arn".data, "aws".data, "s".data, "r".data, "a".data, "ty".data, "id".data⟩ := by
  decide

example : Arn.parse "arn:gcp:s:r:a:ty/id".data = .error .notAws := by decide
example : Arn.parse "arn:aws:s:r:a:tyid".data = .error .invalidResource := by decide
example : Arn.parse "arn:aws:s:r".data = .error .invalidArn := by decide

/-! ## The capability registry: `SERVICE_MAP` (src/main.py lines 8-53) -/

/-- One innermost entry of `SERVICE_MAP`: remote operation name (`'fn'`),
response field (`'key'`) and accepted parameter names (`'params'`). -/
structure Capability where
  fn : Str
  key : Str
  params : List Str
deriving DecidableEq, Repr

/-- One service's entry in `SERVICE_MAP`: the three verb tables plus the
`'grantees'` entry.  Note that in the source the `'grantees'` value is the
parenthesised *string* `('user')`, not a tuple, so it is a `Str` here. -/
structure ServiceEntry where
  list : List (Str × Capability)
  descPerms : List (Str × Capability)
  grantPerms : List (Str × Capability)
  grantees : Str
deriving DecidableEq, Repr

/-- The `'quicksight'` entry of `SERVICE_MAP`. -/
def quicksightEntry : ServiceEntry where
  list :=
    [("user".data, ⟨"list_users".data, "UserList".data,
        ["AwsAccountId".data, "Namespace".data]⟩),
     ("dataset".data, ⟨"list_data_sets".data, "DataSetSummaries".data,
        ["AwsAccountId".data]⟩),
     ("datasource".data, ⟨"list_data_sources".data, "DataSources".data,
        ["AwsAccountId".data]⟩)]
  descPerms :=
    [("dataset".data, ⟨"describe_data_set_permissions".data, "Permissions".data,
        ["AwsAccountId".data, "DataSetId".data]⟩),
     ("datasource".data, ⟨"describe_data_source_permissions".data, "Permissions".data,
        ["AwsAccountId".data, "DataSourceId".data]⟩)]
  grantPerms :=
    [("dataset".data, ⟨"update_data_set_permissions".data, "Status".data,
        ["AwsAccountId".data, "DataSetId".data, "GrantPermissions".data]⟩),
     ("datasource".data, ⟨"update_data_source_permissions".data, "Status".data,
        ["AwsAccountId".data, "DataSourceId".data, "GrantPermissions".data]⟩)]
  grantees := "user".data

/-- `SERVICE_MAP` itself: a dictionary with the single key `'quicksight'`. -/
def SERVICE_MAP : List (Str × ServiceEntry) :=
  [("quicksight".data, quicksightEntry)]

/-- The verb dispatch `SERVICE_MAP[service][verb]` for the three verb keys. -/
def ServiceEntry.verbTable (e : ServiceEntry) (verb : Str) : Option (List (Str × Capability)) :=
  if verb = "list".data then some e.list
  else if verb = "desc-perms".data then some e.descPerms
  else if verb = "grant-perms".data then some e.grantPerms
  else none

/-- `SERVICE_MAP[service][verb][resource_type]`, `none` modelling the
`KeyError` a missing key raises. -/
def capLookup (service verb resource_type : Str) : Option Capability :=
  match SERVICE_MAP.lookup service with
  | none => none
  | some e =>
    match e.verbTable verb with
    | none => none
    | some table => table.lookup resource_type

/-! ## API call values and the boto3 oracle -/

/-- A record returned by a `list` call, a Python dict of string attributes
(the attributes the search compares, plus the `'Arn'` field). -/
abbrev Record := List (Str × Str)

/-- A value inside a permission block returned by a describe call:
either a string (e.g. `'Principal'`) or a list of action names. -/
inductive BlockVal where
  | s (v : Str)
  | l (v : List Str)
deriving DecidableEq, Repr

/-- A permission block: a Python dict such as
`{'Principal': ..., 'Actions': [...]}`. -/
abbrev PermBlock := List (Str × BlockVal)

/-- The `{'Principal': str(grantee), 'Actions': actions}` element of the
`GrantPermissions` argument built by `grant_permissions`. -/
structure GrantSpec where
  principal : Str
  actions : List Str
deriving DecidableEq, Repr

/-- A value passed as an API parameter. -/
inductive ParamVal where
  | s (v : Str)
  | grants (v : List GrantSpec)
deriving DecidableEq, Repr

/-- A value of a response field. -/
inductive RespVal where
  | s (v : Str)
  | n (v : Int)
  | records (v : List Record)
  | blocks (v : List PermBlock)
deriving DecidableEq, Repr

/-- One concrete remote invocation: `getattr(boto3.client(service), fn)(**params)`. -/
structure ApiCall where
  service : Str
  fn : Str
  params : List (Str × ParamVal)
deriving DecidableEq, Repr

/-- The remote collaborator (boto3), as an oracle from the call made to the
returned response dictionary. -/
abbrev AwsOracle := ApiCall → List (Str × RespVal)

/-- Failure modes of `_make_api_call`. -/
inductive ApiErr where
  /-- `KeyError` from the `SERVICE_MAP[...][...][...]` lookups. -/
  | unsupportedCapability
  /-- `data[use_key]` raised `KeyError`: response lacks the expected field. -/
  | responseMissingKey
deriving DecidableEq, Repr

/-- `_make_api_call` (src/main.py lines 146-161).  Looks up the capability,
drops every supplied parameter whose key is not among the accepted
`params`, performs the call, and extracts the `key` field of the response.
The second component records the remote calls actually performed. -/
def make_api_call (env : AwsOracle) (service resource_type verb : Str)
    (api_params : List (Str × ParamVal)) : Except ApiErr RespVal × List ApiCall :=
  match capLookup service verb resource_type with
  | none => (.error .unsupportedCapability, [])
  | some cap =>
    let sent := api_params.filter (fun kv => decide (kv.1 ∈ cap.params))
    let call : ApiCall := ⟨service, cap.fn, sent⟩
    match (env call).lookup cap.key with
    | some v => (.ok v, [call])
    | none => (.error .responseMissingKey, [call])

/-! ## `ResourceSearch` (src/main.py lines 85-127) -/

/-- Removal of a key from a dict, modelling `dict.pop(k)` on the copy. -/
def eraseKey (k : Str) (kv : List (Str × Str)) : List (Str × Str) :=
  kv.filter (fun p => decide (p.1 ≠ k))

/-- The fields of a successfully constructed `ResourceSearch`. -/
structure ResourceSearch where
  service : Str
  type : Str
  kwargs : List (Str × Str)
  is_grantee : Bool
deriving DecidableEq, Repr

/-- The exceptions `ResourceSearch.__init__` raises, in source order. -/
inductive InitErr where
  /-- `KeyError`: `'Both "service" and "type" must be specified ...'`. -/
  | missingServiceType
  /-- `ValueError`: `'All --search's must specify at least one searchable attribute'`. -/
  | noSearchableAttrs
  /-- Uncaught `KeyError` from `SERVICE_MAP[self.service]`: unknown service. -/
  | unknownService
  /-- `KeyError`: `'{service}:{type} is not supported for search'`. -/
  | unsupportedSearch
  /-- `KeyError`: `'{service}:{type} is not supported as a resource'`. -/
  | unsupportedResource
deriving DecidableEq, Repr

/-- `ResourceSearch.__init__` (src/main.py lines 86-103): pop `service` and
`type`, require a remaining attribute, then consult `SERVICE_MAP`.  The
grantee test is Python substring containment of `type` in the *string*
`'user'`. -/
def mkResourceSearch (kv_dict : List (Str × Str)) : Except InitErr ResourceSearch :=
  match kv_dict.lookup "service".data, kv_dict.lookup "type".data with
  | some service, some type =>
    let kwargs := eraseKey "type".data (eraseKey "service".data kv_dict)
    if kwargs.isEmpty then .error .noSearchableAttrs
    else
      match SERVICE_MAP.lookup service with
      | none => .error .unknownService
      | some entry =>
        let is_listable := (entry.list.lookup type).isSome
        let is_describable := (entry.descPerms.lookup type).isSome
        let is_updatable := (entry.grantPerms.lookup type).isSome
        let is_grantee := pyInStr type entry.grantees
        if ¬ is_listable then .error .unsupportedSearch
        else if ¬ is_grantee ∧ (¬ is_describable ∨ ¬ is_updatable) then
          .error .unsupportedResource
        else .ok ⟨service, type, kwargs, is_grantee⟩
  | _, _ => .error .missingServiceType

/-- Failure modes of `ResourceSearch.find_arn`. -/
inductive SearchErr where
  | api (e : ApiErr)
  /-- `data` was not a list of records (dynamic type error iterating it). -/
  | notRecordList
  /-- `ValueError`: `'No matches for {kwargs}'`. -/
  | noMatch (kwargs : List (Str × Str))
  /-- `ValueError`: `'Multiple matches for {kwargs}'`. -/
  | ambiguousMatch (kwargs : List (Str × Str))
  /-- `KeyError` from `matches[0]['Arn']`. -/
  | missingArnField
deriving DecidableEq, Repr

/-- The attribute filter of `find_arn`:
`all(entity.get(key) == value for key, value in self.kwargs.items())`. -/
def matchesCriteria (kwargs : List (Str × Str)) (entity : Record) : Bool :=
  kwargs.all (fun kv => entity.lookup kv.1 == some kv.2)

/-- Result of `find_arn`: the remote calls made, the records printed (the
source prints every match before raising on multiple matches), and the
returned `Arn` field or the exception. -/
structure FindOut where
  calls : List ApiCall
  printed : List Record
  result : Except SearchErr Str
deriving DecidableEq, Repr

/-- The parameter dict `find_arn` passes to `_make_api_call`. -/
def listCallParams (aws_account_id : Str) : List (Str × ParamVal) :=
  [("AwsAccountId".data, .s aws_account_id), ("Namespace".data, .s "default".data)]

/-- `ResourceSearch.find_arn` (src/main.py lines 105-124): list the
entities, keep those matching every search attribute, and require exactly
one match, returning its `'Arn'` field. -/
def ResourceSearch.find_arn (env : AwsOracle) (s : ResourceSearch)
    (aws_account_id : Str) : FindOut :=
  match make_api_call env s.service s.type "list".data (listCallParams aws_account_id) with
  | (.error e, cs) => ⟨cs, [], .error (.api e)⟩
  | (.ok v, cs) =>
    match v with
    | .records data =>
      match data.filter (matchesCriteria s.kwargs) with
      | [] => ⟨cs, [], .error (.noMatch s.kwargs)⟩
      | [m] =>
        match m.lookup "Arn".data with
        | some a => ⟨cs, [], .ok a⟩
        | none => ⟨cs, [], .error .missingArnField⟩
      | ms => ⟨cs, ms, .error (.ambiguousMatch s.kwargs)⟩
    | _ => ⟨cs, [], .error .notRecordList⟩

/-- Errors of the construct-then-search pipeline for one `--search`. -/
inductive ResolveErr where
  | init (e : InitErr)
  | search (e : SearchErr)
deriving DecidableEq, Repr

/-- One `--search` criteria processed end to end: construction
(`ResourceSearch.__init__`), then — only if construction succeeded — the
listing call (`find_arn`).  The second component is the remote-call trace. -/
def resolveSearchKV (env : AwsOracle) (aws_account_id : Str)
    (kv_dict : List (Str × Str)) : Except ResolveErr Str × List ApiCall :=
  match mkResourceSearch kv_dict with
  | .error e => (.error (.init e), [])
  | .ok s =>
    let out := s.find_arn env aws_account_id
    ((out.result.mapError .search), out.calls)

/-! ## Permission propagation (src/main.py lines 168-202) -/

/-- Failure modes of the grant phase of `main`. -/
inductive GrantPhaseErr where
  | api (e : ApiErr)
  /-- The describe response's field was not a list of permission blocks. -/
  | notBlockList
  /-- `KeyError` from `permission_block['Actions']`. -/
  | missingActions
  /-- `permission_block['Actions']` was not a list of action names. -/
  | badActions
deriving DecidableEq, Repr

/-- The selection loop of `get_best_permissions` (src/main.py lines
179-184): keep the first action list strictly longer than every earlier
one (`len(actions) > len(best_permissions)`). -/
def bestLoop (acc : List Str) : List PermBlock → Except GrantPhaseErr (List Str)
  | [] => .ok acc
  | b :: bs =>
    match b.lookup "Actions".data with
    | some (.l actions) =>
      bestLoop (if acc.length < actions.length then actions else acc) bs
    | some (.s _) => .error .badActions
    | none => .error .missingActions

/-- The parameter dict `get_best_permissions` passes to `_make_api_call`. -/
def descCallParams (a : Arn) : List (Str × ParamVal) :=
  [("AwsAccountId".data, .s a.account_id), ("Namespace".data, .s "default".data),
   ("DataSetId".data, .s a.resource_id), ("DataSourceId".data, .s a.resource_id)]

/-- `get_best_permissions` (src/main.py lines 168-185): describe the
resource's permissions and keep the largest action list, first seen
winning ties; `[]` when there are no permission blocks. -/
def get_best_permissions (env : AwsOracle) (arn : Arn) :
    Except GrantPhaseErr (List Str) × List ApiCall :=
  match make_api_call env arn.service arn.resource_type "desc-perms".data
      (descCallParams arn) with
  | (.error e, cs) => (.error (.api e), cs)
  | (.ok v, cs) =>
    match v with
    | .blocks data => (bestLoop [] data, cs)
    | _ => (.error .notBlockList, cs)

/-- The parameter dict `grant_permissions` passes to `_make_api_call`;
`GrantPermissions` is the one-element tuple
`({'Principal': str(grantee), 'Actions': actions},)`. -/
def grantCallParams (resource : Arn) (actions : List Str) (grantee : Arn) :
    List (Str × ParamVal) :=
  [("AwsAccountId".data, .s resource.account_id), ("Namespace".data, .s "default".data),
   ("DataSetId".data, .s resource.resource_id), ("DataSourceId".data, .s resource.resource_id),
   ("GrantPermissions".data, .grants [⟨grantee.str, actions⟩])]

/-- `grant_permissions` (src/main.py lines 188-202): update the resource's
permissions, granting `actions` to the serialized grantee, and return the
response's `Status` field verbatim. -/
def grant_permissions (env : AwsOracle) (resource : Arn) (actions : List Str)
    (grantee : Arn) : Except ApiErr RespVal × List ApiCall :=
  make_api_call env resource.service resource.resource_type "grant-perms".data
    (grantCallParams resource actions grantee)

/-! ## The orchestrator: `main` (src/main.py lines 240-268)

The CLI key=value tokenisation (`parse_args`, `_flatten`,
`_key_value_pairs_to_dicts`) is glue outside the core (spec §9); `main` is
modelled from the point where the argument lists exist: raw ARN strings
for `--grantees`/`--resources` and one dict per `--search`.
`get_aws_account_id` is the identity collaborator, modelled as the
supplied account id string.  `print(f'Processing ...')` and
`print('Done!')` carry no data and are not modelled; the stderr report of
an unexpected grant status is modelled by recording the
(resource, grantee, status) triple the message interpolates. -/

/-- One line printed to stderr by `main`:
`'Unexpected status {status} while updating {resource} for {grantee}'`. -/
structure GrantReport where
  resource : Arn
  grantee : Arn
  status : RespVal
deriving DecidableEq, Repr

/-- The fatal exceptions of a `main` run, one constructor per program
point that can raise. -/
inductive MainErr where
  /-- An ARN given via `--grantees` failed to parse. -/
  | granteeArn (e : ArnErr)
  /-- An ARN given via `--resources` failed to parse. -/
  | resourceArn (e : ArnErr)
  /-- A `--search` dict was rejected by `ResourceSearch.__init__`. -/
  | searchInit (e : InitErr)
  /-- `RuntimeError('Nothing to do')`. -/
  | nothingToDo
  /-- A `find_arn` call failed. -/
  | findArn (e : SearchErr)
  /-- The ARN returned by a search failed to parse. -/
  | searchedArn (e : ArnErr)
  /-- The grant phase raised (describe/update call failure). -/
  | grantPhase (e : GrantPhaseErr)
deriving DecidableEq, Repr

/-- `[Arn(g) for g in args]`, first failure raising. -/
def parseArns : List Str → Except ArnErr (List Arn)
  | [] => .ok []
  | a :: rest =>
    match Arn.parse a with
    | .error e => .error e
    | .ok A =>
      match parseArns rest with
      | .error e => .error e
      | .ok As => .ok (A :: As)

/-- `[ResourceSearch(d) for d in dicts]`, first failure raising. -/
def mkSearches : List (List (Str × Str)) → Except InitErr (List ResourceSearch)
  | [] => .ok []
  | d :: rest =>
    match mkResourceSearch d with
    | .error e => .error e
    | .ok s =>
      match mkSearches rest with
      | .error e => .error e
      | .ok ss => .ok (s :: ss)

/-- The search-resolution loop of `main` (src/main.py lines 252-257):
each search's result is parsed as an ARN and appended to the grantee or
resource list according to `is_grantee`. -/
def resolveSearches (env : AwsOracle) (aws_account_id : Str) :
    List ResourceSearch → List Arn → List Arn → Except MainErr (List Arn × List Arn)
  | [], grantees, resources => .ok (grantees, resources)
  | s :: rest, grantees, resources =>
    match (s.find_arn env aws_account_id).result with
    | .error e => .error (.findArn e)
    | .ok raw =>
      match Arn.parse raw with
      | .error e => .error (.searchedArn e)
      | .ok a =>
        if s.is_grantee then resolveSearches env aws_account_id rest (grantees ++ [a]) resources
        else resolveSearches env aws_account_id rest grantees (resources ++ [a])

/-- The inner grantee loop of `main` (src/main.py lines 262-266): one
grant call per grantee; a status other than `200` appends a stderr
report.  Returns the reports, the (resource, grantee) pairs attempted in
order, and the remote calls made. -/
def grantInner (env : AwsOracle) (resource : Arn) (permissions : List Str) :
    List Arn → Except MainErr (List GrantReport × List (Arn × Arn) × List ApiCall)
  | [] => .ok ([], [], [])
  | g :: gs =>
    match grant_permissions env resource permissions g with
    | (.error e, _) => .error (.grantPhase (.api e))
    | (.ok status, cs) =>
      match grantInner env resource permissions gs with
      | .error e => .error e
      | .ok (reports, attempts, calls) =>
        .ok ((if status ≠ .n 200 then [⟨resource, g, status⟩] else []) ++ reports,
          (resource, g) :: attempts, cs ++ calls)

/-- The outer resource loop of `main` (src/main.py lines 259-266):
`get_best_permissions` once per resource, then the inner grantee loop. -/
def grantOuter (env : AwsOracle) (grantees : List Arn) :
    List Arn → Except MainErr (List GrantReport × List (Arn × Arn) × List ApiCall)
  | [] => .ok ([], [], [])
  | r :: rs =>
    match get_best_permissions env r with
    | (.error e, _) => .error (.grantPhase e)
    | (.ok permissions, cs) =>
      match grantInner env r permissions grantees with
      | .error e => .error e
      | .ok (reports, attempts, calls) =>
        match grantOuter env grantees rs with
        | .error e => .error e
        | .ok (reports2, attempts2, calls2) =>
          .ok (reports ++ reports2, attempts ++ attempts2, cs ++ calls ++ calls2)

/-- The observable outcome of a successful `main` run. -/
structure MainOk where
  /-- The grantee list after direct parsing and search resolution. -/
  grantees : List Arn
  /-- The resource list after direct parsing and search resolution. -/
  resources : List Arn
  /-- The stderr reports of unexpected grant statuses. -/
  stderr : List GrantReport
  /-- The (resource, grantee) grant attempts, in iteration order. -/
  attempts : List (Arn × Arn)
  /-- The remote calls of the grant phase. -/
  grantPhaseCalls : List ApiCall
deriving DecidableEq, Repr

/-- `main` (src/main.py lines 240-268): parse `--grantees`, then
`--resources`, then construct the searches; fail with `Nothing to do`
when all three are empty; resolve each search into the grantee or
resource list; then propagate the best permissions of every resource to
every grantee. -/
def pymain (env : AwsOracle) (aws_account_id : Str) (grantee_args resource_args : List Str)
    (search_args : List (List (Str × Str))) : Except MainErr MainOk :=
  match parseArns grantee_args with
  | .error e => .error (.granteeArn e)
  | .ok grantees0 =>
    match parseArns resource_args with
    | .error e => .error (.resourceArn e)
    | .ok resources0 =>
      match mkSearches search_args with
      | .error e => .error (.searchInit e)
      | .ok searches =>
        if grantees0.isEmpty ∧ resources0.isEmpty ∧ searches.isEmpty then
          .error .nothingToDo
        else
          match resolveSearches env aws_account_id searches grantees0 resources0 with
          | .error e => .error e
          | .ok (grantees, resources) =>
            match grantOuter env grantees resources with
            | .error e => .error e
            | .ok (reports, attempts, calls) =>
              .ok ⟨grantees, resources, reports, attempts, calls⟩

/-! ## Lemmas about the splitting primitives -/

theorem pySplit_ne_nil (sep : Char) (s : Str) : pySplit sep s ≠ [] := by
  induction s with
  | nil => simp [pySplit]
  | cons c rest ih =>
    simp only [pySplit]
    split
    · simp
    · rcases h : pySplit sep rest with _ | ⟨f, r⟩
      · simp
      · simp

theorem pySplit_of_not_mem {sep : Char} {s : Str} (h : sep ∉ s) :
    pySplit sep s = [s] := by
  induction s with
  | nil => rfl
  | cons c rest ih =>
    simp only [List.mem_cons, not_or] at h
    simp only [pySplit, if_neg (Ne.symm h.1), ih h.2]

theorem pySplit_append_cons {sep : Char} {a : Str} (b : Str) (h : sep ∉ a) :
    pySplit sep (a ++ sep :: b) = a :: pySplit sep b := by
  induction a with
  | nil => simp [pySplit]
  | cons c a' ih =>
    simp only [List.mem_cons, not_or] at h
    simp only [List.cons_append, pySplit, if_neg (Ne.symm h.1), List.append_eq, ih h.2]

theorem not_mem_of_mem_pySplit {sep : Char} {s t : Str}
    (h : t ∈ pySplit sep s) : sep ∉ t := by
  induction s generalizing t with
  | nil =>
    simp only [pySplit, List.mem_singleton] at h
    simp [h]
  | cons c rest ih =>
    simp only [pySplit] at h
    by_cases hc : c = sep
    · rw [if_pos hc] at h
      rcases List.mem_cons.mp h with h1 | h2
      · simp [h1]
      · exact ih h2
    · rw [if_neg hc] at h
      rcases hr : pySplit sep rest with _ | ⟨f, r⟩
      · exact absurd hr (pySplit_ne_nil sep rest)
      · rw [hr] at h
        rcases List.mem_cons.mp h with h1 | h2
        · subst h1
          have hf : sep ∉ f := ih (hr ▸ List.mem_cons_self f r)
          simp only [List.mem_cons, not_or]
          exact ⟨fun he => hc he.symm, hf⟩
        · exact ih (hr ▸ List.mem_cons_of_mem f h2)

theorem pySplitOnce_eq_some {sep : Char} {s a b : Str}
    (h : pySplitOnce sep s = some (a, b)) : s = a ++ sep :: b ∧ sep ∉ a := by
  induction s generalizing a with
  | nil => simp [pySplitOnce] at h
  | cons c rest ih =>
    simp only [pySplitOnce] at h
    by_cases hc : c = sep
    · rw [if_pos hc] at h
      simp only [Option.some.injEq, Prod.mk.injEq] at h
      simp [← h.1, ← h.2, hc]
    · rw [if_neg hc] at h
      rcases ho : pySplitOnce sep rest with _ | ⟨a', b'⟩
      · simp [ho] at h
      · rw [ho] at h
        simp only [Option.map_some', Option.some.injEq, Prod.mk.injEq] at h
        obtain ⟨ha, hb⟩ := h
        obtain ⟨h1, h2⟩ := ih (ho.trans (by rw [hb]))
        constructor
        · rw [← ha, h1]
          simp
        · rw [← ha]
          simp only [List.mem_cons, not_or]
          exact ⟨fun he => hc he.symm, h2⟩

theorem pySplitOnce_isSome_iff {sep : Char} {s : Str} :
    (pySplitOnce sep s).isSome = true ↔ sep ∈ s := by
  induction s with
  | nil => simp [pySplitOnce]
  | cons c rest ih =>
    simp only [pySplitOnce]
    by_cases hc : c = sep
    · simp [hc]
    · rw [if_neg hc, Option.isSome_map', ih]
      constructor
      · exact fun hm => List.mem_cons_of_mem c hm
      · intro hm
        rcases List.mem_cons.mp hm with he | hm2
        · exact absurd he.symm hc
        · exact hm2

theorem pySplitOnce_append {sep : Char} {a : Str} (b : Str) (h : sep ∉ a) :
    pySplitOnce sep (a ++ sep :: b) = some (a, b) := by
  induction a with
  | nil => simp [pySplitOnce]
  | cons c a' ih =>
    simp only [List.mem_cons, not_or] at h
    simp only [List.cons_append, pySplitOnce, if_neg (Ne.symm h.1), List.append_eq,
      ih h.2, Option.map_some']

/-! ## Inversion and round-trip facts about `Arn.parse` / `Arn.str` -/

/-- Every field of a parsed ARN comes from a colon split (so contains no
colon), and the first two fields are the checked literals. -/
theorem Arn.parse_ok_fields {s : Str} {A : Arn} (h : Arn.parse s = .ok A) :
    A.const = "arn".data ∧ A.partition = "aws".data ∧
    ':' ∉ A.service ∧ ':' ∉ A.region ∧ ':' ∉ A.account_id ∧
    ':' ∉ A.resource_type ∧ ':' ∉ A.resource_id := by
  unfold Arn.parse at h
  split at h
  case _ c p sv rg ac res heq =>
    split at h
    case _ => exact Except.noConfusion h
    case _ hpre =>
      push_neg at hpre
      have hsv : ':' ∉ sv := not_mem_of_mem_pySplit (s := s) (by rw [heq]; simp)
      have hrg : ':' ∉ rg := not_mem_of_mem_pySplit (s := s) (by rw [heq]; simp)
      have hac : ':' ∉ ac := not_mem_of_mem_pySplit (s := s) (by rw [heq]; simp)
      rcases res with _ | ⟨r, _ | ⟨i2, _ | ⟨x3, rest3⟩⟩⟩
      · exact Except.noConfusion h
      · dsimp only at h
        have hr : ':' ∉ r := not_mem_of_mem_pySplit (s := s) (by rw [heq]; simp)
        rcases ho : pySplitOnce '/' r with _ | ⟨t, i⟩ <;> rw [ho] at h <;> dsimp only at h
        · exact Except.noConfusion h
        · obtain ⟨hre, -⟩ := pySplitOnce_eq_some ho
          injection h with h
          subst h
          refine ⟨hpre.1, hpre.2, hsv, hrg, hac, ?_, ?_⟩
          · intro hx
            exact hr (hre ▸ List.mem_append_left _ hx)
          · intro hx
            exact hr (hre ▸ List.mem_append_right _ (List.mem_cons_of_mem _ hx))
      · dsimp only at h
        have hr : ':' ∉ r := not_mem_of_mem_pySplit (s := s) (by rw [heq]; simp)
        have hi2 : ':' ∉ i2 := not_mem_of_mem_pySplit (s := s) (by rw [heq]; simp)
        injection h with h
        subst h
        exact ⟨hpre.1, hpre.2, hsv, hrg, hac, hr, hi2⟩
      · exact Except.noConfusion h
  case _ => exact Except.noConfusion h

/-- Serialization followed by parsing is the identity on any `Arn` whose
fields are colon-free, whose first two fields are the literals, and whose
resource type is slash-free. -/
theorem Arn.parse_str {A : Arn} (hc : A.const = "arn".data)
    (hp : A.partition = "aws".data) (hsv : ':' ∉ A.service) (hrg : ':' ∉ A.region)
    (hac : ':' ∉ A.account_id) (hrt : ':' ∉ A.resource_type) (hri : ':' ∉ A.resource_id)
    (hslash : '/' ∉ A.resource_type) : Arn.parse A.str = .ok A := by
  have hlast : ':' ∉ A.resource_type ++ '/' :: A.resource_id := by
    intro hx
    rcases List.mem_append.mp hx with h1 | h2
    · exact hrt h1
    · rcases List.mem_cons.mp h2 with h3 | h4
      · exact absurd h3 (by decide)
      · exact hri h4
  have e : pySplit ':' A.str =
      [A.const, A.partition, A.service, A.region, A.account_id,
        A.resource_type ++ '/' :: A.resource_id] := by
    unfold Arn.str
    rw [pySplit_append_cons _ (by rw [hc]; decide),
      pySplit_append_cons _ (by rw [hp]; decide),
      pySplit_append_cons _ hsv, pySplit_append_cons _ hrg,
      pySplit_append_cons _ hac, pySplit_of_not_mem hlast]
  have hcond : (A.const ≠ "arn".data ∨ A.partition ≠ "aws".data) = False := by
    simp [hc, hp]
  simp only [Arn.parse, e, hcond, if_false, pySplitOnce_append A.resource_id hslash]

/-! ## Claim C1: the round-trip law -/

/-- An ARN whose resource type the parser accepted with an embedded slash
(two-colon-token descriptor form). -/
def arnSlashType : Arn :=
  ⟨"arn".data, "aws".data, "s".data, "r".data, "a".data, "ty/pe".data, "id".data⟩

/-- C1 counterexample: `arn:aws:s:r:a:ty/pe:id` parses successfully (two
colon-delimited resource tokens) to an identifier with
`resource_type = "ty/pe"`, but re-parsing its serialization does not give
the identifier back: the serialized form `arn:aws:s:r:a:ty/pe/id` splits
at the first slash instead. -/
theorem claim_C1_counterexample :
    Arn.parse "arn:aws:s:r:a:ty/pe:id".data = .ok arnSlashType ∧
      Arn.parse arnSlashType.str ≠ .ok arnSlashType := by
  constructor
  · decide
  · decide

/-- C1 (amended): for every identifier produced by a successful parse
*whose resource type contains no slash*, parsing the serialization
succeeds and returns the identifier field-by-field. -/
theorem claim_C1_roundtrip {s : Str} {A : Arn} (h : Arn.parse s = .ok A)
    (hs : '/' ∉ A.resource_type) : Arn.parse A.str = .ok A := by
  obtain ⟨hc, hp, h1, h2, h3, h4, h5⟩ := Arn.parse_ok_fields h
  exact Arn.parse_str hc hp h1 h2 h3 h4 h5 hs

/-- C1 witness: the round-trip at the spec's own example identifier. -/
theorem claim_C1_roundtrip_witness :
    Arn.parse (Arn.str ⟨"arn".data, "aws".data, "quicksight".data, "us-east-1".data,
        "123456789012".data, "dataset".data, "abc".data⟩) =
      .ok ⟨"arn".data, "aws".data, "quicksight".data, "us-east-1".data,
        "123456789012".data, "dataset".data, "abc".data⟩ :=
  claim_C1_roundtrip (s := "arn:aws:quicksight:us-east-1:123456789012:dataset/abc".data)
    (by decide) (by decide)

/-! ## Claim C5: characterization of parse success -/

/-- C5: parse succeeds exactly on strings with at least 6 colon-delimited
segments, whose first two segments are the literals `arn` and `aws`, and
whose resource descriptor (the segments after the fifth) is either one
token containing a slash or exactly two tokens; every other string is
rejected with a malformed-identifier error. -/
theorem claim_C5_parse_characterization (s : Str) :
    (∃ A, Arn.parse s = .ok A) ↔
      6 ≤ (pySplit ':' s).length ∧
      (pySplit ':' s).take 2 = ["arn".data, "aws".data] ∧
      ((∃ r, (pySplit ':' s).drop 5 = [r] ∧ '/' ∈ r) ∨
       (∃ t i, (pySplit ':' s).drop 5 = [t, i])) := by
  unfold Arn.parse
  rcases hsp : pySplit ':' s with _ | ⟨c, _ | ⟨p, _ | ⟨sv, _ | ⟨rg, _ | ⟨ac, res⟩⟩⟩⟩⟩
  · simp
  · simp
  · simp
  · simp
  · simp
  · dsimp only
    by_cases hpre : c ≠ "arn".data ∨ p ≠ "aws".data
    · rw [if_pos hpre]
      constructor
      · rintro ⟨A, hA⟩
        exact Except.noConfusion hA
      · rintro ⟨-, h2, -⟩
        simp only [List.take_succ_cons, List.take_zero, List.cons.injEq, and_true] at h2
        rcases hpre with h | h
        · exact (h h2.1).elim
        · exact (h h2.2).elim
    · rw [if_neg hpre]
      push_neg at hpre
      obtain ⟨hc, hp⟩ := hpre
      subst hc
      subst hp
      rcases res with _ | ⟨r, _ | ⟨i2, rest2⟩⟩
      · simp
      · dsimp only
        rcases ho : pySplitOnce '/' r with _ | ⟨t, i⟩
        · have hnr : '/' ∉ r := by
            intro hm
            have hsm := pySplitOnce_isSome_iff.mpr hm
            rw [ho] at hsm
            exact Bool.noConfusion hsm
          simp [hnr]
        · have hmem : '/' ∈ r := pySplitOnce_isSome_iff.mp (by rw [ho]; rfl)
          simp [hmem]
      · rcases rest2 with _ | ⟨x3, rest3⟩
        · simp
        · constructor
          · rintro ⟨A, hA⟩
            exact Except.noConfusion hA
          · rintro ⟨-, -, (⟨r2, hr2, -⟩ | ⟨t, i, hti⟩)⟩
            · exact List.noConfusion (List.cons.inj hr2).2
            · exact List.noConfusion (List.cons.inj (List.cons.inj hti).2).2

/-! ## Claim C10: no validation of segment contents -/

/-- C10: beyond the literal `arn`/`aws` prefix and a well-formed resource
descriptor, parse performs no validation of segment contents: every
canonical-form string — in particular one whose service, region and
account-id segments are all empty — parses successfully, returning the
segments verbatim. -/
theorem claim_C10_no_segment_validation (sv rg ac rt ri : Str)
    (hsv : ':' ∉ sv) (hrg : ':' ∉ rg) (hac : ':' ∉ ac) (hrt : ':' ∉ rt)
    (hri : ':' ∉ ri) (hslash : '/' ∉ rt) :
    Arn.parse (Arn.str ⟨"arn".data, "aws".data, sv, rg, ac, rt, ri⟩) =
      .ok ⟨"arn".data, "aws".data, sv, rg, ac, rt, ri⟩ :=
  Arn.parse_str rfl rfl hsv hrg hac hrt hri hslash

/-- C10 witness: `arn:aws::::dataset/abc` parses with empty service,
region and account id. -/
theorem claim_C10_witness :
    Arn.parse "arn:aws::::dataset/abc".data =
      .ok ⟨"arn".data, "aws".data, [], [], [], "dataset".data, "abc".data⟩ := by
  have h := claim_C10_no_segment_validation [] [] [] "dataset".data "abc".data
    (by decide) (by decide) (by decide) (by decide) (by decide) (by decide)
  have e : Arn.str ⟨"arn".data, "aws".data, [], [], [], "dataset".data, "abc".data⟩ =
      "arn:aws::::dataset/abc".data := by decide
  rw [e] at h
  exact h

/-! ## Claim C3: best-permission selection -/

/-- One step of the selection loop: keep the incoming action list only
when strictly longer than the current best
(`if len(actions) > len(best_permissions)`). -/
def bestStep (best actions : List Str) : List Str :=
  if best.length < actions.length then actions else best

/-- The `Actions` entry of a permission block (defaulting to `[]`, used
only under the well-formedness hypothesis that the entry is present). -/
def actsOf (b : PermBlock) : List Str :=
  match b.lookup "Actions".data with
  | some (.l a) => a
  | _ => []

theorem actsOf_eq {b : PermBlock} {a : List Str}
    (h : b.lookup "Actions".data = some (.l a)) : actsOf b = a := by
  simp [actsOf, h]

theorem bestLoop_eq_fold (blocks : List PermBlock) (acc : List Str)
    (hwf : ∀ b ∈ blocks, ∃ a, b.lookup "Actions".data = some (.l a)) :
    bestLoop acc blocks = .ok (List.foldl bestStep acc (blocks.map actsOf)) := by
  induction blocks generalizing acc with
  | nil => rfl
  | cons b t ih =>
    obtain ⟨a, ha⟩ := hwf b (List.mem_cons_self b t)
    simp only [bestLoop, ha, List.map_cons, List.foldl_cons, actsOf_eq ha]
    exact ih _ (fun b' hb' => hwf b' (List.mem_cons_of_mem _ hb'))

/-- The left fold with `bestStep` computes the first element strictly
longer than the accumulator and every other element — i.e. the first
occurrence of the maximum when that maximum beats the accumulator. -/
theorem foldBest_spec (ls : List (List Str)) (acc : List Str) :
    (List.foldl bestStep acc ls = acc ∧
      ∀ j, j < ls.length → (ls.getD j []).length ≤ acc.length)
    ∨ (∃ i, i < ls.length ∧ List.foldl bestStep acc ls = ls.getD i [] ∧
        acc.length < (ls.getD i []).length ∧
        (∀ j, j < ls.length → (ls.getD j []).length ≤ (ls.getD i []).length) ∧
        (∀ j, j < i → (ls.getD j []).length < (ls.getD i []).length)) := by
  induction ls generalizing acc with
  | nil => exact .inl ⟨rfl, fun j hj => absurd hj (by simp)⟩
  | cons a t ih =>
    simp only [List.foldl_cons]
    by_cases h : acc.length < a.length
    · have hstep : bestStep acc a = a := by simp [bestStep, h]
      rw [hstep]
      rcases ih a with ⟨heq, hb⟩ | ⟨i, hi, heq, hacc, hb, hfirst⟩
      · refine .inr ⟨0, by simp, by simpa using heq, by simpa using h, ?_, ?_⟩
        · intro j hj
          cases j with
          | zero => simp
          | succ j' =>
            simp only [List.getD_cons_succ, List.getD_cons_zero]
            exact hb j' (by simp only [List.length_cons] at hj; omega)
        · intro j hj
          exact absurd hj (Nat.not_lt_zero j)
      · refine .inr ⟨i + 1, by simp only [List.length_cons]; omega,
          by simpa using heq, ?_, ?_, ?_⟩
        · simp only [List.getD_cons_succ]
          exact Nat.lt_trans h hacc
        · intro j hj
          cases j with
          | zero =>
            simp only [List.getD_cons_zero, List.getD_cons_succ]
            exact Nat.le_of_lt hacc
          | succ j' =>
            simp only [List.getD_cons_succ]
            exact hb j' (by simp only [List.length_cons] at hj; omega)
        · intro j hj
          cases j with
          | zero =>
            simp only [List.getD_cons_zero, List.getD_cons_succ]
            exact hacc
          | succ j' =>
            simp only [List.getD_cons_succ]
            exact hfirst j' (by omega)
    · have hstep : bestStep acc a = acc := by simp [bestStep, h]
      rw [hstep]
      rcases ih acc with ⟨heq, hb⟩ | ⟨i, hi, heq, hacc, hb, hfirst⟩
      · refine .inl ⟨heq, ?_⟩
        intro j hj
        cases j with
        | zero => simpa using Nat.le_of_not_lt h
        | succ j' =>
          simp only [List.getD_cons_succ]
          exact hb j' (by simp only [List.length_cons] at hj; omega)
      · refine .inr ⟨i + 1, by simp only [List.length_cons]; omega,
          by simpa using heq, by simpa using hacc, ?_, ?_⟩
        · intro j hj
          cases j with
          | zero =>
            simp only [List.getD_cons_zero, List.getD_cons_succ]
            exact Nat.le_of_lt (Nat.lt_of_le_of_lt (Nat.le_of_not_lt h) hacc)
          | succ j' =>
            simp only [List.getD_cons_succ]
            exact hb j' (by simp only [List.length_cons] at hj; omega)
        · intro j hj
          cases j with
          | zero =>
            simp only [List.getD_cons_zero, List.getD_cons_succ]
            exact Nat.lt_of_le_of_lt (Nat.le_of_not_lt h) hacc
          | succ j' =>
            simp only [List.getD_cons_succ]
            exact hfirst j' (by omega)

theorem getD_map_actsOf (blocks : List PermBlock) (j : Nat) (hj : j < blocks.length) :
    (blocks.map actsOf).getD j [] = actsOf (blocks.getD j []) := by
  induction blocks generalizing j with
  | nil => exact absurd hj (by simp)
  | cons b t ih =>
    cases j with
    | zero => simp
    | succ j' =>
      simp only [List.map_cons, List.getD_cons_succ]
      exact ih j' (by simp only [List.length_cons] at hj; omega)

theorem getD_mem_of_lt {α : Type} [Inhabited α] (l : List α) (d : α) (j : Nat)
    (hj : j < l.length) : l.getD j d ∈ l := by
  induction l generalizing j with
  | nil => exact absurd hj (by simp)
  | cons b t ih =>
    cases j with
    | zero => simp
    | succ j' =>
      simp only [List.getD_cons_succ]
      exact List.mem_cons_of_mem _ (ih j' (by simp only [List.length_cons] at hj; omega))

/-- C3: given a successful describe call returning `blocks` (each block
carrying an `Actions` list), `get_best_permissions` returns without error
the action list of the block with the maximum number of actions, a later
block replacing the current best only when strictly larger (first-seen
wins ties); and the empty list when there are no blocks at all. -/
theorem claim_C3_best_permissions (env : AwsOracle) (arn : Arn)
    (blocks : List PermBlock) (cs : List ApiCall)
    (hresp : make_api_call env arn.service arn.resource_type "desc-perms".data
      (descCallParams arn) = (.ok (.blocks blocks), cs))
    (hwf : ∀ b ∈ blocks, ∃ a, b.lookup "Actions".data = some (.l a)) :
    ∃ best, get_best_permissions env arn = (.ok best, cs) ∧
      ((blocks = [] ∧ best = []) ∨
       (∃ i, i < blocks.length ∧
        ∃ acts, (blocks.getD i []).lookup "Actions".data = some (.l acts) ∧
          best = acts ∧
          (∀ j, j < blocks.length → ∀ aj,
            (blocks.getD j []).lookup "Actions".data = some (.l aj) →
            aj.length ≤ acts.length) ∧
          (∀ j, j < i → ∀ aj,
            (blocks.getD j []).lookup "Actions".data = some (.l aj) →
            aj.length < acts.length))) := by
  have hloop := bestLoop_eq_fold blocks [] hwf
  have hout : get_best_permissions env arn =
      (.ok (List.foldl bestStep [] (blocks.map actsOf)), cs) := by
    unfold get_best_permissions
    rw [hresp]
    dsimp only
    rw [hloop]
  refine ⟨_, hout, ?_⟩
  have hlen : (blocks.map actsOf).length = blocks.length := List.length_map _ _
  rcases foldBest_spec (blocks.map actsOf) [] with ⟨heq, hb⟩ | ⟨i, hi, heq, -, hb, hfirst⟩
  · rcases blocks with _ | ⟨b0, bt⟩
    · exact .inl ⟨rfl, heq⟩
    · refine .inr ⟨0, by simp, ?_⟩
      obtain ⟨a0, ha0⟩ := hwf b0 (List.mem_cons_self b0 bt)
      refine ⟨a0, by simpa using ha0, ?_, ?_, ?_⟩
      · have h0 : a0.length ≤ 0 := by
          have := hb 0 (by simp)
          simpa [actsOf_eq ha0] using this
        have : a0 = [] := List.length_eq_zero.mp (Nat.le_zero.mp h0)
        rw [heq, this]
      · intro j hj aj haj
        have := hb j (by simpa [hlen] using hj)
        rw [getD_map_actsOf _ j hj, actsOf_eq haj] at this
        simp only [List.length_nil] at this
        have h0 : a0.length ≤ 0 := by
          have h00 := hb 0 (by simp)
          simpa [actsOf_eq ha0] using h00
        omega
      · intro j hj
        exact absurd hj (Nat.not_lt_zero j)
  · rw [hlen] at hi hb
    have hmem : blocks.getD i [] ∈ blocks := getD_mem_of_lt blocks [] i hi
    obtain ⟨ai, hai⟩ := hwf _ hmem
    refine .inr ⟨i, hi, ai, hai, ?_, ?_, ?_⟩
    · rw [heq, getD_map_actsOf _ i hi, actsOf_eq hai]
    · intro j hj aj haj
      have := hb j hj
      rw [getD_map_actsOf _ j hj, actsOf_eq haj,
        getD_map_actsOf _ i hi, actsOf_eq hai] at this
      exact this
    · intro j hj aj haj
      have := hfirst j hj
      rw [getD_map_actsOf _ j (Nat.lt_trans hj hi), actsOf_eq haj,
        getD_map_actsOf _ i hi, actsOf_eq hai] at this
      exact this

/-- A quicksight dataset resource used by concrete scenarios. -/
def arnDataset : Arn :=
  ⟨"arn".data, "aws".data, "quicksight".data, "us-east-1".data, "111".data,
    "dataset".data, "d1".data⟩

/-- Permission blocks with action counts (2, 5, 3), the spec's example. -/
def blocksC3 : List PermBlock :=
  [[("Principal".data, .s "p1".data),
    ("Actions".data, .l ["a1".data, "a2".data])],
   [("Principal".data, .s "p2".data),
    ("Actions".data, .l ["b1".data, "b2".data, "b3".data, "b4".data, "b5".data])],
   [("Principal".data, .s "p3".data),
    ("Actions".data, .l ["c1".data, "c2".data, "c3".data])]]

/-- An oracle answering the describe call with the (2, 5, 3) blocks. -/
def envC3 : AwsOracle := fun c =>
  if c.fn = "describe_data_set_permissions".data then
    [("Permissions".data, .blocks blocksC3)]
  else []

/-- The describe call `envC3` receives. -/
def descCallC3 : ApiCall :=
  ⟨"quicksight".data, "describe_data_set_permissions".data,
    [("AwsAccountId".data, .s "111".data), ("DataSetId".data, .s "d1".data)]⟩

/-- C3 witness: on blocks with action counts (2, 5, 3) the selection
returns the 5-action block. -/
theorem claim_C3_witness :
    ∃ best, get_best_permissions envC3 arnDataset = (.ok best, [descCallC3]) ∧
      ((blocksC3 = [] ∧ best = []) ∨
       (∃ i, i < blocksC3.length ∧
        ∃ acts, (blocksC3.getD i []).lookup "Actions".data = some (.l acts) ∧
          best = acts ∧
          (∀ j, j < blocksC3.length → ∀ aj,
            (blocksC3.getD j []).lookup "Actions".data = some (.l aj) →
            aj.length ≤ acts.length) ∧
          (∀ j, j < i → ∀ aj,
            (blocksC3.getD j []).lookup "Actions".data = some (.l aj) →
            aj.length < acts.length))) :=
  claim_C3_best_permissions envC3 arnDataset blocksC3 [descCallC3] (by decide)
    (by
      intro b hb
      rcases (by simpa [blocksC3] using hb :
          b = blocksC3.getD 0 [] ∨ b = blocksC3.getD 1 [] ∨ b = blocksC3.getD 2 []) with
        rfl | rfl | rfl
      · exact ⟨_, rfl⟩
      · exact ⟨_, rfl⟩
      · exact ⟨_, rfl⟩)

/-! ## Claim C4: resolver match semantics -/

/-- C4: for every record list returned by the listing collaborator,
`find_arn` keeps exactly the records carrying every criteria attribute
with an equal value; zero matches fail with the no-match error carrying
the criteria, one match returns its `Arn` field, and two or more matches
surface every matching record for display and fail with the
ambiguous-match error. -/
theorem claim_C4_resolver (env : AwsOracle) (s : ResourceSearch) (accountId : Str)
    (data : List Record) (cs : List ApiCall)
    (hresp : make_api_call env s.service s.type "list".data (listCallParams accountId) =
      (.ok (.records data), cs)) :
    (∀ e, e ∈ data.filter (matchesCriteria s.kwargs) ↔
      (e ∈ data ∧ ∀ kv ∈ s.kwargs, e.lookup kv.1 = some kv.2)) ∧
    (data.filter (matchesCriteria s.kwargs) = [] →
      (s.find_arn env accountId).result = .error (.noMatch s.kwargs) ∧
      (s.find_arn env accountId).printed = []) ∧
    (∀ m, data.filter (matchesCriteria s.kwargs) = [m] →
      ∀ v, m.lookup "Arn".data = some v → (s.find_arn env accountId).result = .ok v) ∧
    (2 ≤ (data.filter (matchesCriteria s.kwargs)).length →
      (s.find_arn env accountId).printed = data.filter (matchesCriteria s.kwargs) ∧
      (s.find_arn env accountId).result = .error (.ambiguousMatch s.kwargs)) := by
  have hfind : s.find_arn env accountId =
      match data.filter (matchesCriteria s.kwargs) with
      | [] => ⟨cs, [], .error (.noMatch s.kwargs)⟩
      | [m] =>
        match m.lookup "Arn".data with
        | some a => ⟨cs, [], .ok a⟩
        | none => ⟨cs, [], .error .missingArnField⟩
      | ms => ⟨cs, ms, .error (.ambiguousMatch s.kwargs)⟩ := by
    unfold ResourceSearch.find_arn
    rw [hresp]
  refine ⟨?_, ?_, ?_, ?_⟩
  · intro e
    simp only [List.mem_filter, matchesCriteria, List.all_eq_true, decide_eq_true_eq]
    constructor
    · rintro ⟨h1, h2⟩
      exact ⟨h1, fun kv hkv => eq_of_beq (h2 kv hkv)⟩
    · rintro ⟨h1, h2⟩
      exact ⟨h1, fun kv hkv => beq_of_eq (h2 kv hkv)⟩
  · intro hfil
    rw [hfind, hfil]
    exact ⟨rfl, rfl⟩
  · intro m hfil v hv
    rw [hfind, hfil]
    dsimp only
    rw [hv]
  · intro hlen
    rcases hfil : data.filter (matchesCriteria s.kwargs) with _ | ⟨m0, _ | ⟨m1, rest⟩⟩
    · rw [hfil] at hlen
      exact absurd hlen (by simp)
    · rw [hfil] at hlen
      exact absurd hlen (by simp)
    · rw [hfind, hfil]
      exact ⟨rfl, rfl⟩

/-- The two user records of the spec's search scenario: same shape,
different `Email` values. -/
def recordsC4 : List Record :=
  [[("Arn".data, "arn:aws:quicksight:us-east-1:111:user/u1".data),
    ("Email".data, "a@example.com".data)],
   [("Arn".data, "arn:aws:quicksight:us-east-1:111:user/u2".data),
    ("Email".data, "b@example.com".data)]]

/-- An oracle answering the user listing with the two records. -/
def envC4 : AwsOracle := fun c =>
  if c.fn = "list_users".data then [("UserList".data, .records recordsC4)] else []

/-- The constructed search `service=quicksight type=user Email=a@example.com`. -/
def searchC4 : ResourceSearch :=
  ⟨"quicksight".data, "user".data, [("Email".data, "a@example.com".data)], true⟩

/-- The listing call `envC4` receives. -/
def listCallC4 : ApiCall :=
  ⟨"quicksight".data, "list_users".data,
    [("AwsAccountId".data, .s "111".data), ("Namespace".data, .s "default".data)]⟩

/-- C4 witness: against the two-record listing, the search matches exactly
one record and returns its `Arn` field. -/
theorem claim_C4_witness :
    (ResourceSearch.find_arn envC4 searchC4 "111".data).result =
      .ok "arn:aws:quicksight:us-east-1:111:user/u1".data := by
  have h := claim_C4_resolver envC4 searchC4 "111".data recordsC4 [listCallC4] (by decide)
  exact h.2.2.1
    [("Arn".data, "arn:aws:quicksight:us-east-1:111:user/u1".data),
     ("Email".data, "a@example.com".data)] (by decide)
    "arn:aws:quicksight:us-east-1:111:user/u1".data (by decide)

/-! ## Claim C7: parameter filtering on every capability -/

/-- C7: for every (service, verb, resource type) present in the registry,
the remote invocation performed by `_make_api_call` passes exactly the
supplied parameters whose keys belong to the capability's accepted
parameter set; every other supplied parameter is dropped, not sent. -/
theorem claim_C7_param_filtering (service verb resource_type : Str) (cap : Capability)
    (hcap : capLookup service verb resource_type = some cap)
    (env : AwsOracle) (api_params : List (Str × ParamVal)) :
    ∃ c, (make_api_call env service resource_type verb api_params).2 = [c] ∧
      c.service = service ∧ c.fn = cap.fn ∧
      (∀ k v, (k, v) ∈ c.params ↔ ((k, v) ∈ api_params ∧ k ∈ cap.params)) := by
  unfold make_api_call
  rw [hcap]
  dsimp only
  rcases hl : (env ⟨service, cap.fn,
      api_params.filter (fun kv => decide (kv.1 ∈ cap.params))⟩).lookup cap.key with _ | v <;>
    dsimp only <;>
    exact ⟨_, rfl, rfl, rfl, fun k v => by
      simp only [List.mem_filter, decide_eq_true_eq]⟩

/-- An oracle used where the response is irrelevant. -/
def envNone : AwsOracle := fun _ => []

/-- C7 witness: the quicksight user-listing capability keeps
`AwsAccountId` and `Namespace` and drops an unsupported `MaxResults`. -/
theorem claim_C7_witness :
    ∃ c, (make_api_call envNone "quicksight".data "user".data "list".data
        [("AwsAccountId".data, .s "1".data), ("Namespace".data, .s "default".data),
         ("MaxResults".data, .s "5".data)]).2 = [c] ∧
      c.service = "quicksight".data ∧ c.fn = "list_users".data ∧
      (∀ k v, (k, v) ∈ c.params ↔
        (((k, v) ∈ [("AwsAccountId".data, ParamVal.s "1".data),
           ("Namespace".data, ParamVal.s "default".data),
           ("MaxResults".data, ParamVal.s "5".data)]) ∧
         k ∈ ["AwsAccountId".data, "Namespace".data])) :=
  claim_C7_param_filtering "quicksight".data "list".data "user".data
    ⟨"list_users".data, "UserList".data, ["AwsAccountId".data, "Namespace".data]⟩
    (by decide) envNone _

/-! ## Claim C9: the grantee flag on accepted criteria -/

/-- C9: every criteria that construction accepts has `is_grantee = true`
exactly when its resource type is the exact string `user` — despite the
grantee test being substring containment in the string `'user'`, because
every accepted type is one of the listable types `user`, `dataset`,
`datasource`. -/
theorem claim_C9_grantee_iff_user (kv : List (Str × Str)) (s : ResourceSearch)
    (h : mkResourceSearch kv = .ok s) :
    (s.is_grantee = true ↔ s.type = "user".data) := by
  unfold mkResourceSearch at h
  split at h
  case _ o1 o2 sv ty hsv hty =>
    dsimp only at h
    split at h
    · exact Except.noConfusion h
    · split at h
      · exact Except.noConfusion h
      · rename_i entry hentry
        have hqe : entry = quicksightEntry := by
          rcases hq : sv == "quicksight".data with _ | _
          · rw [SERVICE_MAP, List.lookup_cons, hq] at hentry
            dsimp only at hentry
            rw [List.lookup_nil] at hentry
            exact Option.noConfusion hentry
          · rw [SERVICE_MAP, List.lookup_cons, hq] at hentry
            dsimp only at hentry
            exact (Option.some.inj hentry).symm
        subst hqe
        split at h
        · exact Except.noConfusion h
        · rename_i hlist
          rw [Decidable.not_not] at hlist
          split at h
          · exact Except.noConfusion h
          · injection h with h
            subst h
            have hty3 : ty = "user".data ∨ ty = "dataset".data ∨
                ty = "datasource".data := by
              by_contra hcon
              push_neg at hcon
              obtain ⟨h1, h2, h3⟩ := hcon
              rw [show List.lookup ty quicksightEntry.list = none from by
                simp [quicksightEntry, List.lookup_cons, beq_false_of_ne h1,
                  beq_false_of_ne h2, beq_false_of_ne h3]] at hlist
              exact Bool.noConfusion hlist
            rcases hty3 with rfl | rfl | rfl <;> dsimp only <;> decide
  case _ => exact Except.noConfusion h

/-- The search dict `service=quicksight type=user Email=a@example.com`. -/
def kvUser : List (Str × Str) :=
  [("service".data, "quicksight".data), ("type".data, "user".data),
   ("Email".data, "a@example.com".data)]

/-- C9 witness: the user search constructs with `is_grantee = true` and
type exactly `user`. -/
theorem claim_C9_witness :
    mkResourceSearch kvUser = .ok searchC4 ∧
      (searchC4.is_grantee = true ↔ searchC4.type = "user".data) :=
  ⟨by decide, claim_C9_grantee_iff_user kvUser searchC4 (by decide)⟩

/-! ## Claim C6: unsupported types fail before any remote call -/

/-- A resource type that is a grantee kind or fully grantable for its
service: the claim's precondition, negated, computed from the registry. -/
def granteeOrGrantable (service type : Str) : Bool :=
  match SERVICE_MAP.lookup service with
  | none => false
  | some e =>
    pyInStr type e.grantees ||
      ((e.descPerms.lookup type).isSome && (e.grantPerms.lookup type).isSome)

/-- C6 (amended): for every search criteria whose resource type is
neither a grantee kind nor fully grantable for its service, the pipeline
fails during criteria construction — with the *unsupported-search* error
whenever the type is not listable (which covers every such type in the
current registry), not necessarily the unsupported-resource-type error —
and no remote collaborator call is made. -/
theorem claim_C6_fails_before_call (env : AwsOracle) (accountId : Str)
    (kv : List (Str × Str)) (service type : Str)
    (hsv : kv.lookup "service".data = some service)
    (hty : kv.lookup "type".data = some type)
    (hng : granteeOrGrantable service type = false) :
    (∃ e, (resolveSearchKV env accountId kv).1 = .error (.init e)) ∧
      (resolveSearchKV env accountId kv).2 = [] := by
  rcases hmk : mkResourceSearch kv with e | s
  · unfold resolveSearchKV
    rw [hmk]
    exact ⟨⟨e, rfl⟩, rfl⟩
  · exfalso
    unfold mkResourceSearch at hmk
    rw [hsv, hty] at hmk
    dsimp only at hmk
    split at hmk
    case _ => exact Except.noConfusion hmk
    case _ =>
      split at hmk
      case _ => exact Except.noConfusion hmk
      case _ entry hentry =>
        split at hmk
        case _ => exact Except.noConfusion hmk
        case _ =>
          split at hmk
          case _ => exact Except.noConfusion hmk
          case _ hcond =>
            rw [granteeOrGrantable, hentry] at hng
            dsimp only at hng
            push_neg at hcond
            obtain ⟨hgF, handF⟩ := Bool.or_eq_false_iff.mp hng
            obtain ⟨hd, hu⟩ := hcond (by
              intro hgt
              rw [hgF] at hgt
              exact Bool.noConfusion hgt)
            rcases Bool.and_eq_false_iff.mp handF with h1 | h2
            · rw [hd] at h1
              exact Bool.noConfusion h1
            · rw [hu] at h2
              exact Bool.noConfusion h2

/-- The search dict `service=quicksight type=folder Name=x`: `folder` is
neither a substring of `'user'` nor present in the permission tables. -/
def kvFolder : List (Str × Str) :=
  [("service".data, "quicksight".data), ("type".data, "folder".data),
   ("Name".data, "x".data)]

/-- C6 counterexample: for the unsupported type `folder` the pipeline
fails with the unsupported-*search* error, not the
unsupported-resource-type error the claim names (no listable type of the
current registry can reach that error), though indeed before any remote
call. -/
theorem claim_C6_counterexample :
    granteeOrGrantable "quicksight".data "folder".data = false ∧
      resolveSearchKV envNone "111".data kvFolder =
        (.error (.init .unsupportedSearch), []) ∧
      ResolveErr.init .unsupportedSearch ≠ ResolveErr.init .unsupportedResource := by
  refine ⟨by decide, by decide, by decide⟩

/-- C6 witness: the amended theorem at the `folder` criteria. -/
theorem claim_C6_witness :
    (∃ e, (resolveSearchKV envNone "111".data kvFolder).1 = .error (.init e)) ∧
      (resolveSearchKV envNone "111".data kvFolder).2 = [] :=
  claim_C6_fails_before_call envNone "111".data kvFolder "quicksight".data "folder".data
    (by decide) (by decide) (by decide)

/-! ## Claim C8: the Nothing-to-do condition -/

theorem parseArns_ok_length {args : List Str} {as : List Arn}
    (h : parseArns args = .ok as) : as.length = args.length := by
  induction args generalizing as with
  | nil =>
    injection h with h
    rw [← h]
    rfl
  | cons a t ih =>
    dsimp only [parseArns] at h
    rcases hp : Arn.parse a with e | A <;> rw [hp] at h <;> dsimp only at h
    · exact Except.noConfusion h
    · rcases hr : parseArns t with e | As <;> rw [hr] at h <;> dsimp only at h
      · exact Except.noConfusion h
      · injection h with h
        rw [← h, List.length_cons, List.length_cons, ih hr]

theorem mkSearches_ok_length {args : List (List (Str × Str))} {ss : List ResourceSearch}
    (h : mkSearches args = .ok ss) : ss.length = args.length := by
  induction args generalizing ss with
  | nil =>
    injection h with h
    rw [← h]
    rfl
  | cons a t ih =>
    dsimp only [mkSearches] at h
    rcases hp : mkResourceSearch a with e | s <;> rw [hp] at h <;> dsimp only at h
    · exact Except.noConfusion h
    · rcases hr : mkSearches t with e | rest <;> rw [hr] at h <;> dsimp only at h
      · exact Except.noConfusion h
      · injection h with h
        rw [← h, List.length_cons, List.length_cons, ih hr]

theorem resolveSearches_no_nothingToDo (env : AwsOracle) (acct : Str) :
    ∀ (ss : List ResourceSearch) (gs rs : List Arn),
      resolveSearches env acct ss gs rs ≠ .error .nothingToDo := by
  intro ss
  induction ss with
  | nil =>
    intro gs rs h
    exact Except.noConfusion h
  | cons s t ih =>
    intro gs rs h
    dsimp only [resolveSearches] at h
    rcases hf : (ResourceSearch.find_arn env s acct).result with e | raw <;>
      rw [hf] at h <;> dsimp only at h
    · injection h with h
      exact MainErr.noConfusion h
    · rcases hp : Arn.parse raw with e | a <;> rw [hp] at h <;> dsimp only at h
      · injection h with h
        exact MainErr.noConfusion h
      · rcases hg : s.is_grantee with _ | _ <;> rw [hg] at h <;> simp only [Bool.false_eq_true,
          if_false, if_true, reduceIte] at h
        · exact ih _ _ h
        · exact ih _ _ h

theorem grantInner_no_nothingToDo (env : AwsOracle) (r : Arn) (perms : List Str) :
    ∀ gs : List Arn, grantInner env r perms gs ≠ .error .nothingToDo := by
  intro gs
  induction gs with
  | nil =>
    intro h
    exact Except.noConfusion h
  | cons g t ih =>
    intro h
    dsimp only [grantInner] at h
    rcases hgp : grant_permissions env r perms g with ⟨e | st, cs⟩ <;>
      rw [hgp] at h <;> dsimp only at h
    · injection h with h
      exact MainErr.noConfusion h
    · rcases hr : grantInner env r perms t with e | ⟨reps, atts, cls⟩ <;>
        rw [hr] at h <;> dsimp only at h
      · injection h with h
        exact ih (by rw [hr, h])
      · exact Except.noConfusion h

theorem grantOuter_no_nothingToDo (env : AwsOracle) (grantees : List Arn) :
    ∀ rs : List Arn, grantOuter env grantees rs ≠ .error .nothingToDo := by
  intro rs
  induction rs with
  | nil =>
    intro h
    exact Except.noConfusion h
  | cons r t ih =>
    intro h
    dsimp only [grantOuter] at h
    rcases hb : get_best_permissions env r with ⟨e | perms, cs⟩ <;>
      rw [hb] at h <;> dsimp only at h
    · injection h with h
      exact MainErr.noConfusion h
    · rcases hi : grantInner env r perms grantees with e | ⟨reps, atts, cls⟩ <;>
        rw [hi] at h <;> dsimp only at h
      · injection h with h
        exact grantInner_no_nothingToDo env r perms grantees (by rw [hi, h])
      · rcases ho : grantOuter env grantees t with e | ⟨reps2, atts2, cls2⟩ <;>
          rw [ho] at h <;> dsimp only at h
        · injection h with h
          exact ih (by rw [ho, h])
        · exact Except.noConfusion h

theorem resolveSearches_ok_length (env : AwsOracle) (acct : Str) :
    ∀ (ss : List ResourceSearch) (gs rs gs' rs' : List Arn),
      resolveSearches env acct ss gs rs = .ok (gs', rs') →
      gs'.length + rs'.length = gs.length + rs.length + ss.length := by
  intro ss
  induction ss with
  | nil =>
    intro gs rs gs' rs' h
    injection h with h
    rw [Prod.mk.injEq] at h
    rw [← h.1, ← h.2]
    simp
  | cons s t ih =>
    intro gs rs gs' rs' h
    dsimp only [resolveSearches] at h
    rcases hf : (ResourceSearch.find_arn env s acct).result with e | raw <;>
      rw [hf] at h <;> dsimp only at h
    · exact Except.noConfusion h
    · rcases hp : Arn.parse raw with e | a <;> rw [hp] at h <;> dsimp only at h
      · exact Except.noConfusion h
      · rcases hg : s.is_grantee with _ | _ <;> rw [hg] at h <;> simp only [Bool.false_eq_true,
          if_false, if_true, reduceIte] at h
        · have := ih _ _ _ _ h
          simp only [List.length_append, List.length_singleton, List.length_cons,
            List.length_nil] at this ⊢
          omega
        · have := ih _ _ _ _ h
          simp only [List.length_append, List.length_singleton, List.length_cons,
            List.length_nil] at this ⊢
          omega

/-- C8: the orchestrator fails with the Nothing-to-do error exactly when
the grantee list, the resource list and the search list are all empty —
equivalently (since every successfully resolved search appends one
identifier) exactly when both final lists would be empty; and every
successful run ends with at least one resolved grantee or resource, so
no other condition produces the error. -/
theorem claim_C8_nothing_to_do (env : AwsOracle) (acct : Str)
    (grantee_args resource_args : List Str) (search_args : List (List (Str × Str))) :
    (pymain env acct grantee_args resource_args search_args = .error .nothingToDo ↔
      (grantee_args = [] ∧ resource_args = [] ∧ search_args = [])) ∧
    (∀ out, pymain env acct grantee_args resource_args search_args = .ok out →
      out.grantees.length + out.resources.length ≠ 0) := by
  constructor
  · constructor
    · intro h
      unfold pymain at h
      rcases h1 : parseArns grantee_args with e | gs0 <;> rw [h1] at h <;> dsimp only at h
      · injection h with h
        exact absurd h (by simp)
      · rcases h2 : parseArns resource_args with e | rs0 <;> rw [h2] at h <;> dsimp only at h
        · injection h with h
          exact absurd h (by simp)
        · rcases h3 : mkSearches search_args with e | ss <;> rw [h3] at h <;> dsimp only at h
          · injection h with h
            exact absurd h (by simp)
          · by_cases hC : (gs0.isEmpty = true ∧ rs0.isEmpty = true ∧ ss.isEmpty = true)
            · have e1 : grantee_args = [] := by
                have hl := parseArns_ok_length h1
                rw [List.isEmpty_iff.mp hC.1] at hl
                exact List.eq_nil_of_length_eq_zero hl.symm
              have e2 : resource_args = [] := by
                have hl := parseArns_ok_length h2
                rw [List.isEmpty_iff.mp hC.2.1] at hl
                exact List.eq_nil_of_length_eq_zero hl.symm
              have e3 : search_args = [] := by
                have hl := mkSearches_ok_length h3
                rw [List.isEmpty_iff.mp hC.2.2] at hl
                exact List.eq_nil_of_length_eq_zero hl.symm
              exact ⟨e1, e2, e3⟩
            · rw [if_neg hC] at h
              rcases h4 : resolveSearches env acct ss gs0 rs0 with e | ⟨gs, rs⟩ <;>
                rw [h4] at h <;> dsimp only at h
              · injection h with h
                exact absurd (by rw [h4, h])
                  (resolveSearches_no_nothingToDo env acct ss gs0 rs0)
              · rcases h5 : grantOuter env gs rs with e | ⟨reps, atts, cls⟩ <;>
                  rw [h5] at h <;> dsimp only at h
                · injection h with h
                  exact absurd (by rw [h5, h]) (grantOuter_no_nothingToDo env gs rs)
                · exact Except.noConfusion h
    · rintro ⟨rfl, rfl, rfl⟩
      rfl
  · intro out hout
    unfold pymain at hout
    rcases h1 : parseArns grantee_args with e | gs0 <;> rw [h1] at hout <;> dsimp only at hout
    · exact Except.noConfusion hout
    · rcases h2 : parseArns resource_args with e | rs0 <;> rw [h2] at hout <;> dsimp only at hout
      · exact Except.noConfusion hout
      · rcases h3 : mkSearches search_args with e | ss <;> rw [h3] at hout <;> dsimp only at hout
        · exact Except.noConfusion hout
        · by_cases hC : (gs0.isEmpty = true ∧ rs0.isEmpty = true ∧ ss.isEmpty = true)
          · rw [if_pos hC] at hout
            exact Except.noConfusion hout
          · rw [if_neg hC] at hout
            rcases h4 : resolveSearches env acct ss gs0 rs0 with e | ⟨gs, rs⟩ <;>
              rw [h4] at hout <;> dsimp only at hout
            · exact Except.noConfusion hout
            · rcases h5 : grantOuter env gs rs with e | ⟨reps, atts, cls⟩ <;>
                rw [h5] at hout <;> dsimp only at hout
              · exact Except.noConfusion hout
              · injection hout with hout
                subst hout
                dsimp only
                intro h0
                apply hC
                have hlen := resolveSearches_ok_length env acct ss gs0 rs0 gs rs h4
                have hz : gs0.length = 0 ∧ rs0.length = 0 ∧ ss.length = 0 := by omega
                exact ⟨List.isEmpty_iff.mpr (List.eq_nil_of_length_eq_zero hz.1),
                  List.isEmpty_iff.mpr (List.eq_nil_of_length_eq_zero hz.2.1),
                  List.isEmpty_iff.mpr (List.eq_nil_of_length_eq_zero hz.2.2)⟩

/-- C8 witness: empty resources, empty grantees, empty searches fail with
the Nothing-to-do error. -/
theorem claim_C8_witness :
    pymain envNone "111".data [] [] [] = .error .nothingToDo :=
  (claim_C8_nothing_to_do envNone "111".data [] [] []).1.mpr ⟨rfl, rfl, rfl⟩

/-! ## Claim C2: grant-status reporting -/

theorem grantInner_spec (env : AwsOracle) (r : Arn) (perms : List Str) :
    ∀ (gs : List Arn) (reports : List GrantReport) (attempts : List (Arn × Arn))
      (calls : List ApiCall),
      grantInner env r perms gs = .ok (reports, attempts, calls) →
      (∀ rep ∈ reports, rep.status ≠ .n 200) ∧
      (∀ g ∈ gs, ∃ st cs2, grant_permissions env r perms g = (.ok st, cs2) ∧
        (st ≠ .n 200 → (⟨r, g, st⟩ : GrantReport) ∈ reports)) ∧
      attempts = gs.map (fun g => (r, g)) := by
  intro gs
  induction gs with
  | nil =>
    intro reports attempts calls h
    injection h with h
    rw [Prod.mk.injEq, Prod.mk.injEq] at h
    obtain ⟨h1, h2, h3⟩ := h
    subst h1
    subst h2
    exact ⟨fun rep hrep => absurd hrep (List.not_mem_nil rep),
      fun g hg => absurd hg (List.not_mem_nil g), rfl⟩
  | cons g t ih =>
    intro reports attempts calls h
    dsimp only [grantInner] at h
    rcases hgp : grant_permissions env r perms g with ⟨e | st, cs⟩ <;>
      rw [hgp] at h <;> dsimp only at h
    · exact Except.noConfusion h
    · rcases hrec : grantInner env r perms t with e | ⟨reps, atts, cls⟩ <;>
        rw [hrec] at h <;> dsimp only at h
      · exact Except.noConfusion h
      · injection h with h
        rw [Prod.mk.injEq, Prod.mk.injEq] at h
        obtain ⟨h1, h2, h3⟩ := h
        subst h1
        subst h2
        obtain ⟨ihrep, ihg, ihatt⟩ := ih reps atts cls hrec
        refine ⟨?_, ?_, ?_⟩
        · intro rep hrep
          rcases List.mem_append.mp hrep with hmem | hmem
          · by_cases h200 : st ≠ RespVal.n 200
            · rw [if_pos h200] at hmem
              have := List.mem_singleton.mp hmem
              subst this
              exact h200
            · rw [if_neg h200] at hmem
              exact absurd hmem (List.not_mem_nil rep)
          · exact ihrep rep hmem
        · intro g' hg'
          rcases List.mem_cons.mp hg' with rfl | hmem
          · exact ⟨st, cs, hgp, fun h200 => List.mem_append_left _
              (by rw [if_pos h200]; exact List.mem_singleton_self _)⟩
          · obtain ⟨st', cs2, hgp', hin⟩ := ihg g' hmem
            exact ⟨st', cs2, hgp', fun h200 => List.mem_append_right _ (hin h200)⟩
        · rw [List.map_cons, ihatt]

theorem grantOuter_spec (env : AwsOracle) (grantees : List Arn) :
    ∀ (rs : List Arn) (reports : List GrantReport) (attempts : List (Arn × Arn))
      (calls : List ApiCall),
      grantOuter env grantees rs = .ok (reports, attempts, calls) →
      (∀ rep ∈ reports, rep.status ≠ .n 200) ∧
      (∀ r ∈ rs, ∃ perms cs, get_best_permissions env r = (.ok perms, cs) ∧
        ∀ g ∈ grantees, ∃ st cs2, grant_permissions env r perms g = (.ok st, cs2) ∧
          (st ≠ .n 200 → (⟨r, g, st⟩ : GrantReport) ∈ reports)) ∧
      attempts = rs.flatMap (fun r => grantees.map (fun g => (r, g))) := by
  intro rs
  induction rs with
  | nil =>
    intro reports attempts calls h
    injection h with h
    rw [Prod.mk.injEq, Prod.mk.injEq] at h
    obtain ⟨h1, h2, h3⟩ := h
    subst h1
    subst h2
    exact ⟨fun rep hrep => absurd hrep (List.not_mem_nil rep),
      fun r hr => absurd hr (List.not_mem_nil r), rfl⟩
  | cons r t ih =>
    intro reports attempts calls h
    dsimp only [grantOuter] at h
    rcases hbp : get_best_permissions env r with ⟨e | perms, cs⟩ <;>
      rw [hbp] at h <;> dsimp only at h
    · exact Except.noConfusion h
    · rcases hgi : grantInner env r perms grantees with e | ⟨reps, atts, cls⟩ <;>
        rw [hgi] at h <;> dsimp only at h
      · exact Except.noConfusion h
      · rcases hgo : grantOuter env grantees t with e | ⟨reps2, atts2, cls2⟩ <;>
          rw [hgo] at h <;> dsimp only at h
        · exact Except.noConfusion h
        · injection h with h
          rw [Prod.mk.injEq, Prod.mk.injEq] at h
          obtain ⟨h1, h2, h3⟩ := h
          subst h1
          subst h2
          obtain ⟨iinv, iper, iatt⟩ := grantInner_spec env r perms grantees reps atts cls hgi
          obtain ⟨oinv, oper, oatt⟩ := ih reps2 atts2 cls2 hgo
          refine ⟨?_, ?_, ?_⟩
          · intro rep hrep
            rcases List.mem_append.mp hrep with hmem | hmem
            · exact iinv rep hmem
            · exact oinv rep hmem
          · intro r' hr'
            rcases List.mem_cons.mp hr' with rfl | hmem
            · refine ⟨perms, cs, hbp, ?_⟩
              intro g hg
              obtain ⟨st, cs2, hgp, hin⟩ := iper g hg
              exact ⟨st, cs2, hgp, fun h200 => List.mem_append_left _ (hin h200)⟩
            · obtain ⟨perms', cs', hbp', hall⟩ := oper r' hmem
              refine ⟨perms', cs', hbp', ?_⟩
              intro g hg
              obtain ⟨st, cs2, hgp, hin⟩ := hall g hg
              exact ⟨st, cs2, hgp, fun h200 => List.mem_append_right _ (hin h200)⟩
          · rw [List.flatMap_cons, iatt, oatt]

/-- C2 (amended): in every successful run, for every resource and every
grantee a grant call is made (the attempts are exactly the
resource×grantee pairs, in order, and the run still succeeds), and a
failure message is reported on stderr for a pair if and only if the
collaborator's returned status is not *exactly* `200` — not "not a 2xx
status": any status other than the integer 200, including other 2xx
codes, is reported. -/
theorem claim_C2_grant_reporting (env : AwsOracle) (acct : Str)
    (grantee_args resource_args : List Str) (search_args : List (List (Str × Str)))
    (out : MainOk)
    (h : pymain env acct grantee_args resource_args search_args = .ok out) :
    (∀ r ∈ out.resources, ∃ perms cs, get_best_permissions env r = (.ok perms, cs) ∧
      ∀ g ∈ out.grantees, ∃ st cs2, grant_permissions env r perms g = (.ok st, cs2) ∧
        ((⟨r, g, st⟩ : GrantReport) ∈ out.stderr ↔ st ≠ .n 200)) ∧
    out.attempts = out.resources.flatMap (fun r => out.grantees.map (fun g => (r, g))) := by
  unfold pymain at h
  rcases h1 : parseArns grantee_args with e | gs0 <;> rw [h1] at h <;> dsimp only at h
  · exact Except.noConfusion h
  · rcases h2 : parseArns resource_args with e | rs0 <;> rw [h2] at h <;> dsimp only at h
    · exact Except.noConfusion h
    · rcases h3 : mkSearches search_args with e | ss <;> rw [h3] at h <;> dsimp only at h
      · exact Except.noConfusion h
      · by_cases hC : (gs0.isEmpty = true ∧ rs0.isEmpty = true ∧ ss.isEmpty = true)
        · rw [if_pos hC] at h
          exact Except.noConfusion h
        · rw [if_neg hC] at h
          rcases h4 : resolveSearches env acct ss gs0 rs0 with e | ⟨gs, rs⟩ <;>
            rw [h4] at h <;> dsimp only at h
          · exact Except.noConfusion h
          · rcases h5 : grantOuter env gs rs with e | ⟨reps, atts, cls⟩ <;>
              rw [h5] at h <;> dsimp only at h
            · exact Except.noConfusion h
            · injection h with h
              subst h
              dsimp only
              obtain ⟨hinv, hper, hatt⟩ := grantOuter_spec env gs rs reps atts cls h5
              refine ⟨?_, hatt⟩
              intro r hr
              obtain ⟨perms, cs, hbp, hall⟩ := hper r hr
              refine ⟨perms, cs, hbp, ?_⟩
              intro g hg
              obtain ⟨st, cs2, hgp, hin⟩ := hall g hg
              exact ⟨st, cs2, hgp, ⟨fun hmem => hinv _ hmem, hin⟩⟩

/-- A quicksight user principal used by concrete scenarios. -/
def arnUser : Arn :=
  ⟨"arn".data, "aws".data, "quicksight".data, "us-east-1".data, "111".data,
    "user".data, "u1".data⟩

/-- An oracle whose describe call returns one single-action block and
whose update call reports status `201`. -/
def env201 : AwsOracle := fun c =>
  if c.fn = "describe_data_set_permissions".data then
    [("Permissions".data, .blocks
      [[("Principal".data, .s "admin".data), ("Actions".data, .l ["viz".data])]])]
  else if c.fn = "update_data_set_permissions".data then
    [("Status".data, .n 201)]
  else []

/-- The describe call `env201` receives. -/
def descCall201 : ApiCall :=
  ⟨"quicksight".data, "describe_data_set_permissions".data,
    [("AwsAccountId".data, .s "111".data), ("DataSetId".data, .s "d1".data)]⟩

/-- The update call `env201` receives. -/
def grantCall201 : ApiCall :=
  ⟨"quicksight".data, "update_data_set_permissions".data,
    [("AwsAccountId".data, .s "111".data), ("DataSetId".data, .s "d1".data),
     ("GrantPermissions".data, .grants
       [⟨"arn:aws:quicksight:us-east-1:111:user/u1".data, ["viz".data]⟩])]⟩

/-- The observable outcome of the `env201` run: one attempt, one stderr
report with status `201`. -/
def mainOut201 : MainOk :=
  ⟨[arnUser], [arnDataset], [⟨arnDataset, arnUser, .n 201⟩],
    [(arnDataset, arnUser)], [descCall201, grantCall201]⟩

/-- Python `200 <= status < 300`, the claim's "2xx success status". -/
def is2xx (v : RespVal) : Bool :=
  match v with
  | .n k => decide (200 ≤ k ∧ k < 300)
  | _ => false

/-- C2 counterexample: a grant call whose status is `201` — a 2xx success
status — still produces a failure report on stderr, because the source
compares against the literal `200`; the claim's "a 2xx status produces no
error report" is false. -/
theorem claim_C2_counterexample :
    is2xx (.n 201) = true ∧
      pymain env201 "111".data ["arn:aws:quicksight:us-east-1:111:user/u1".data]
        ["arn:aws:quicksight:us-east-1:111:dataset/d1".data] [] = .ok mainOut201 ∧
      mainOut201.stderr = [⟨arnDataset, arnUser, .n 201⟩] := by
  refine ⟨rfl, by decide, rfl⟩

/-- C2 witness: the amended reporting law at the `env201` run. -/
theorem claim_C2_witness :
    (∀ r ∈ mainOut201.resources, ∃ perms cs,
      get_best_permissions env201 r = (.ok perms, cs) ∧
      ∀ g ∈ mainOut201.grantees, ∃ st cs2,
        grant_permissions env201 r perms g = (.ok st, cs2) ∧
        ((⟨r, g, st⟩ : GrantReport) ∈ mainOut201.stderr ↔ st ≠ .n 200)) ∧
    mainOut201.attempts =
      mainOut201.resources.flatMap (fun r => mainOut201.grantees.map (fun g => (r, g))) :=
  claim_C2_grant_reporting env201 "111".data
    ["arn:aws:quicksight:us-east-1:111:user/u1".data]
    ["arn:aws:quicksight:us-east-1:111:dataset/d1".data] [] mainOut201 (by decide)
